import Mathlib

/-!
Verification of the type-description layer of the `ethabi` repository
(canonical type-name reader and structured parameter deserializers).

The source is embedded shallowly:

* `ParamType` mirrors `ethabi::ParamType` (`Box<ParamType>` becomes plain
  nesting, `Vec` becomes `List`, `usize` becomes `Nat`).
* Strings are modelled as `List Char`; the source indexes `&str` by bytes
  while iterating `chars()`, so the model is exact for ASCII input (every
  input appearing in this development is ASCII).
* Fallible Rust code is embedded in `PResult`: `.ok`/`.err` are the two
  sides of `Result`, `.panic` is an aborting panic (`unwrap` on `None`/`Err`,
  index underflow followed by out-of-bounds slicing).  General recursion is
  embedded with an explicit fuel argument (`.fuelOut` marks exhausted fuel);
  the public entry points supply fuel that is large enough, and theorems
  about arbitrary inputs either quantify over the fuel or use the
  fuel-stability lemma `readF_stable`.
-/

/-- Outcome of running an embedded Rust computation: a returned value, a
returned error, an aborting panic, or fuel exhaustion of the embedding. -/
inductive PResult (ε α : Type) where
  | ok (a : α)
  | err (e : ε)
  | panic
  | fuelOut
deriving DecidableEq, Repr

/-- `ethabi::ParamType` (`src/param_type/param_type.rs`): the closed set of
ABI type variants. -/
inductive ParamType where
  | address
  | bool
  | string
  | bytes
  | fixedBytes (n : Nat)
  | int (n : Nat)
  | uint (n : Nat)
  | array (t : ParamType)
  | fixedArray (t : ParamType) (n : Nat)
  | tuple (ts : List ParamType)
deriving Repr

/-- Errors of the canonical-string reader (`ErrorKind::InvalidName` and the
`ParseIntError` foreign link, which the spec calls `InvalidNumber`). -/
inductive ParseError where
  | invalidName (s : String)
  | invalidNumber
deriving DecidableEq, Repr

/-- Numeric value of a decimal digit list (most significant first). -/
def digitsVal (ds : List Char) : Nat :=
  ds.foldl (fun a c => a * 10 + (c.toNat - 48)) 0

/-- `usize::from_str_radix(s, 10)`: an optional leading `'+'` followed by a
non-empty run of decimal digits whose value fits in 64-bit `usize`;
everything else (empty input, a lone sign, a non-digit, overflow) is an
error, collapsed here to `none`. -/
def parseUsize (s : List Char) : Option Nat :=
  let ds := if s.head? = some '+' then s.drop 1 else s
  if ds = [] then none
  else if ds.all (fun c => c.isDigit) then
    if digitsVal ds < 2 ^ 64 then some (digitsVal ds) else none
  else none

/-- The keyword arm of `Reader::read` (`reader.rs` lines 71-94): exact
keywords first, then the `int`/`uint`/`bytes` numeric-suffix guards, in
source order. -/
def scalarRead (s : List Char) : PResult ParseError ParamType :=
  if s = "address".toList then .ok .address
  else if s = "bytes".toList then .ok .bytes
  else if s = "bool".toList then .ok .bool
  else if s = "string".toList then .ok .string
  else if s = "int".toList then .ok (.int 256)
  else if s = "tuple".toList then .ok (.tuple [])
  else if s = "uint".toList then .ok (.uint 256)
  else if s.take 3 = "int".toList then
    match parseUsize (s.drop 3) with
    | some n => .ok (.int n)
    | none => .err .invalidNumber
  else if s.take 4 = "uint".toList then
    match parseUsize (s.drop 4) with
    | some n => .ok (.uint n)
    | none => .err .invalidNumber
  else if s.take 5 = "bytes".toList then
    match parseUsize (s.drop 5) with
    | some n => .ok (.fixedBytes n)
    | none => .err .invalidNumber
  else .err (.invalidName (String.mk s))

/-- The bracket-tuple scan of `Reader::read` (`reader.rs` lines 11-41),
started after the leading `'['` with the nesting counter at 1.  The slice
between split points is accumulated in `buf` (in reverse); a `']'` closing
to nesting 0 or a `','` at nesting 1 reads the accumulated slice through
`rd` and starts a new slice; a `']'` at nesting 0 is the `nested < 0` error
returning `InvalidName` of the whole input. -/
def tupleScanGo (rd : List Char → PResult ParseError ParamType) (orig : String) :
    List Char → Nat → List Char → List ParamType → PResult ParseError (List ParamType)
  | [], _, _, acc => .ok acc.reverse
  | c :: rest, nested, buf, acc =>
    if c = '[' then
      tupleScanGo rd orig rest (nested + 1) (c :: buf) acc
    else if c = ']' then
      match nested with
      | 0 => .err (.invalidName orig)
      | 1 =>
        match rd buf.reverse with
        | .ok t => tupleScanGo rd orig rest 0 [] (t :: acc)
        | .err e => .err e
        | .panic => .panic
        | .fuelOut => .fuelOut
      | k + 2 => tupleScanGo rd orig rest (k + 1) (c :: buf) acc
    else if c = ',' then
      if nested = 1 then
        match rd buf.reverse with
        | .ok t => tupleScanGo rd orig rest 1 [] (t :: acc)
        | .err e => .err e
        | .panic => .panic
        | .fuelOut => .fuelOut
      else tupleScanGo rd orig rest nested (c :: buf) acc
    else tupleScanGo rd orig rest nested (c :: buf) acc

/-- The number part of the array branch (`reader.rs` lines 46-54): the
characters between the last `'['` and the trailing `']'`, extracted exactly
as the source does (reverse, skip one, take while not `'['`, reverse). -/
def arrayNum (s : List Char) : List Char :=
  ((s.reverse.drop 1).takeWhile (fun c => c ≠ '[')).reverse

/-- The array arm of `Reader::read` (`reader.rs` lines 44-67): empty number
part means a dynamic array over the prefix `&name[..count - 2]`, a
non-empty one is parsed as the fixed length over the prefix
`&name[..count - num.len() - 2]`.  The source parses the length before
slicing, so an unparseable length is `InvalidNumber` while a parseable one
with no matching `'['` (e.g. `"5]"`) underflows the index and panics. -/
def readArray (rd : List Char → PResult ParseError ParamType) (s : List Char) :
    PResult ParseError ParamType :=
  if arrayNum s = [] then
    if s.length < 2 then .panic
    else
      match rd (s.take (s.length - 2)) with
      | .ok t => .ok (.array t)
      | .err e => .err e
      | .panic => .panic
      | .fuelOut => .fuelOut
  else
    match parseUsize (arrayNum s) with
    | none => .err .invalidNumber
    | some len =>
      if s.length < (arrayNum s).length + 2 then .panic
      else
        match rd (s.take (s.length - (arrayNum s).length - 2)) with
        | .ok t => .ok (.fixedArray t len)
        | .err e => .err e
        | .panic => .panic
        | .fuelOut => .fuelOut

/-- One unfolding of `Reader::read` (`reader.rs` lines 8-97), with `rd` the
reader used for the recursive calls, which are all on strictly shorter
inputs: the `Some(']') if name.starts_with('[')` bracket-tuple arm, the
`Some(']')` array arm, and the keyword fall-through. -/
def readBody (rd : List Char → PResult ParseError ParamType) (s : List Char) :
    PResult ParseError ParamType :=
  if s.getLast? = some ']' then
    if s.head? = some '[' then
      match tupleScanGo rd (String.mk s) s.tail 1 [] [] with
      | .ok ts => .ok (.tuple ts)
      | .err e => .err e
      | .panic => .panic
      | .fuelOut => .fuelOut
    else readArray rd s
  else scalarRead s

/-- Fuel-indexed `Reader::read`; each recursive call of the source consumes
one unit of fuel and operates on a strictly shorter string. -/
def readF : Nat → List Char → PResult ParseError ParamType
  | 0 => fun _ => .fuelOut
  | fuel + 1 => fun s => readBody (readF fuel) s

/-- `Reader::read` on a character list, with sufficient fuel. -/
def readL (s : List Char) : PResult ParseError ParamType :=
  readF (s.length + 1) s

/-- `Reader::read` (`reader.rs`): convert a canonical type-name string to a
`ParamType`. -/
def ReaderRead (s : String) : PResult ParseError ParamType :=
  readL s.toList

example : ReaderRead "address" = .ok .address := rfl
example : ReaderRead "bytes32" = .ok (.fixedBytes 32) := rfl
example : ReaderRead "bool[][3]" = .ok (.fixedArray (.array .bool) 3) := rfl
example : ReaderRead "[address,bool]" = .ok (.tuple [.address, .bool]) := rfl
example : ReaderRead "]" = .panic := rfl
example : ReaderRead "[address,bool][]" = .err (.invalidName "[") := rfl

/-- JSON-like values as the serde deserializers see them
(`serde_json::Value`).  A structured object is the materialized list of its
key/value entries in source order; `visit_map` walks this list, and a value
whose key is unrecognized is simply dropped (the `_ => {}` arm). -/
inductive Value where
  | vNull
  | vBool (b : Bool)
  | vNum (n : Int)
  | vStr (s : String)
  | vArr (xs : List Value)
  | vObj (fs : List (String × Value))
deriving Repr

/-- Errors produced through `serde::de::Error` by the structured parsers:
`duplicate_field`, `missing_field`, `Error::custom`, and the invalid-type
errors serde raises when a value has the wrong shape.  `readError` wraps a
reader failure surfacing through `ParamType`'s deserializer. -/
inductive DeError where
  | duplicateField (s : String)
  | missingField (s : String)
  | custom (s : String)
  | invalidType (s : String)
  | readError (e : ParseError)
deriving DecidableEq, Repr

/-- `map.next_value::<String>()`: a JSON string deserializes, any other
value is serde's invalid-type error. -/
def deString (v : Value) : PResult DeError String :=
  match v with
  | .vStr s => .ok s
  | _ => .err (.invalidType "a string")

/-- `map.next_value::<bool>()`: a JSON boolean deserializes, any other
value is serde's invalid-type error. -/
def deBool (v : Value) : PResult DeError Bool :=
  match v with
  | .vBool b => .ok b
  | _ => .err (.invalidType "a boolean")

/-- Modelled from the spec: `ParamType`'s serde `Deserialize` impl is not
among the provided sources (only its callers are); per spec section 4.4 a
`type` field is "resolved through the Canonical-String Reader", so a JSON
string is read with `Reader::read` (a reader error surfaces as a
deserialization error) and a non-string value is a type error. -/
def paramTypeDe (v : Value) : PResult DeError ParamType :=
  match v with
  | .vStr s =>
    match ReaderRead s with
    | .ok t => .ok t
    | .err e => .err (.readError e)
    | .panic => .panic
    | .fuelOut => .fuelOut
  | _ => .err (.invalidType "a param type")

/-- `ethabi::EventParam` (`event_param.rs` lines 11-18). -/
structure EventParam where
  name : String
  kind : ParamType
  indexed : Bool
deriving Repr

/-- Accumulator of `EventParamVisitor::visit_map` (`event_param.rs` lines
55-58): one optional slot per recognized field. -/
structure EPState where
  name : Option String
  kind : Option ParamType
  indexed : Option Bool
  components : Option (List EventParam)
deriving Repr

/-- `TupleParamsVisitor::visit_seq` in `event_param.rs` (lines 121-133):
deserialize each element of the sequence as an `EventParam` (via `epd`),
in input order. -/
def epSeq (epd : Value → PResult DeError EventParam) :
    List Value → PResult DeError (List EventParam)
  | [] => .ok []
  | x :: xs =>
    match epd x with
    | .ok p =>
      match epSeq epd xs with
      | .ok ps => .ok (p :: ps)
      | .err e => .err e
      | .panic => .panic
      | .fuelOut => .fuelOut
    | .err e => .err e
    | .panic => .panic
    | .fuelOut => .fuelOut

/-- `TupleParams::deserialize` in `event_param.rs` (lines 24-31):
`deserialize_seq`, so a non-array value is a type error. -/
def epComponentsDe (epd : Value → PResult DeError EventParam) (v : Value) :
    PResult DeError (List EventParam) :=
  match v with
  | .vArr xs => epSeq epd xs
  | _ => .err (.invalidType "a sequence")

/-- The field loop of `EventParamVisitor::visit_map` (`event_param.rs`
lines 60-90): each recognized key fills its slot after a duplicate check —
note the source reports a duplicate `"type"` as `duplicate_field("kind")` —
and unrecognized keys are skipped. -/
def epLoop (epd : Value → PResult DeError EventParam) :
    List (String × Value) → EPState → PResult DeError EPState
  | [], st => .ok st
  | (k, v) :: rest, st =>
    if k = "name" then
      if st.name.isSome then .err (.duplicateField "name")
      else
        match deString v with
        | .ok s => epLoop epd rest { st with name := some s }
        | .err e => .err e
        | .panic => .panic
        | .fuelOut => .fuelOut
    else if k = "type" then
      if st.kind.isSome then .err (.duplicateField "kind")
      else
        match paramTypeDe v with
        | .ok t => epLoop epd rest { st with kind := some t }
        | .err e => .err e
        | .panic => .panic
        | .fuelOut => .fuelOut
    else if k = "components" then
      if st.components.isSome then .err (.duplicateField "components")
      else
        match epComponentsDe epd v with
        | .ok ps => epLoop epd rest { st with components := some ps }
        | .err e => .err e
        | .panic => .panic
        | .fuelOut => .fuelOut
    else if k = "indexed" then
      if st.indexed.isSome then .err (.duplicateField "indexed")
      else
        match deBool v with
        | .ok b => epLoop epd rest { st with indexed := some b }
        | .err e => .err e
        | .panic => .panic
        | .fuelOut => .fuelOut
    else epLoop epd rest st

/-- The field-extraction epilogue of `EventParamVisitor::visit_map`
(`event_param.rs` lines 92-109): `name` is required first; a missing
`type` is reported as `missing_field("kind")`; a `Tuple` kind has its
element list replaced by the kinds of the parsed `components`, through
`components.map(..).map(..).unwrap()` — which panics when `components` is
absent; `indexed` defaults to `false`. -/
def epFinish (st : EPState) : PResult DeError EventParam :=
  match st.name with
  | none => .err (.missingField "name")
  | some nm =>
    match st.kind with
    | none => .err (.missingField "kind")
    | some t =>
      match t with
      | .tuple _ =>
        match st.components with
        | none => .panic
        | some ps =>
          .ok ⟨nm, .tuple (ps.map (fun p => p.kind)), st.indexed.getD false⟩
      | _ => .ok ⟨nm, t, st.indexed.getD false⟩

/-- Fuel-indexed `EventParam::deserialize` (`deserialize_any` with
`EventParamVisitor`, `event_param.rs` lines 33-111): a map runs
`visit_map`, anything else hits the visitor's default, an invalid-type
error.  Each nested `EventParam` inside `components` consumes one unit of
fuel. -/
def eventParamDeF : Nat → Value → PResult DeError EventParam
  | 0 => fun _ => .fuelOut
  | fuel + 1 => fun v =>
    match v with
    | .vObj fs =>
      match epLoop (eventParamDeF fuel) fs ⟨none, none, none, none⟩ with
      | .ok st => epFinish st
      | .err e => .err e
      | .panic => .panic
      | .fuelOut => .fuelOut
    | _ => .err (.invalidType "a valid event parameter spec")

mutual

/-- Structural size of a value, an upper bound on its nesting depth, used
as fuel for the recursive event-parameter deserializer. -/
def vSize : Value → Nat
  | .vNull => 1
  | .vBool _ => 1
  | .vNum _ => 1
  | .vStr _ => 1
  | .vArr xs => vSizeList xs + 1
  | .vObj fs => vSizeFields fs + 1

def vSizeList : List Value → Nat
  | [] => 0
  | v :: vs => vSize v + vSizeList vs + 1

def vSizeFields : List (String × Value) → Nat
  | [] => 0
  | (_, v) :: fs => vSize v + vSizeFields fs + 1

end

/-- `EventParam::deserialize` with sufficient fuel (the nesting depth of a
value is below its size). -/
def eventParamDe (v : Value) : PResult DeError EventParam :=
  eventParamDeF (vSize v) v

/-- `ethabi::TupleParam` (`tuple_param.rs` lines 8-14). -/
structure TupleParam where
  name : Option String
  kind : ParamType
deriving Repr

/-- The field loop of `TupleParamVisitor::visit_map` (`tuple_param.rs`
lines 41-57): only `name` and `type` are recognized (each with a duplicate
check reporting its own key); everything else — including `components` —
is skipped. -/
def tpLoop : List (String × Value) → Option String → Option ParamType →
    PResult DeError (Option String × Option ParamType)
  | [], n, k => .ok (n, k)
  | (key, v) :: rest, n, k =>
    if key = "name" then
      if n.isSome then .err (.duplicateField "name")
      else
        match deString v with
        | .ok s => tpLoop rest (some s) k
        | .err e => .err e
        | .panic => .panic
        | .fuelOut => .fuelOut
    else if key = "type" then
      if k.isSome then .err (.duplicateField "type")
      else
        match paramTypeDe v with
        | .ok t => tpLoop rest n (some t)
        | .err e => .err e
        | .panic => .panic
        | .fuelOut => .fuelOut
    else tpLoop rest n k

/-- `TupleParam::deserialize` (`tuple_param.rs` lines 16-66): run the field
loop, require `type` (`missing_field("type")`), leave `name` optional. -/
def tupleParamDe (v : Value) : PResult DeError TupleParam :=
  match v with
  | .vObj fs =>
    match tpLoop fs none none with
    | .ok (n, some t) => .ok ⟨n, t⟩
    | .ok (_, none) => .err (.missingField "type")
    | .err e => .err e
    | .panic => .panic
    | .fuelOut => .fuelOut
  | _ => .err (.invalidType "a valid tuple parameter spec")

def lookupField : List (String × Value) → String → Option Value
  | [], _ => none
  | (k, v) :: rest, key => if k = key then some v else lookupField rest key

/-- `serde_json::Value::get(key)`: a field lookup on an object, `None` on
any other value. -/
def vGet (v : Value) (key : String) : Option Value :=
  match v with
  | .vObj fs => lookupField fs key
  | _ => none

/-- The `.unwrap()` on `ParamType::deserialize(kind)` in `tuple_params.rs`
line 38: a deserialization error aborts by panic instead of being
returned. -/
def tpUnwrap : PResult DeError ParamType → PResult DeError ParamType
  | .ok t => .ok t
  | .err _ => .panic
  | .panic => .panic
  | .fuelOut => .fuelOut

/-- One iteration of the `TupleParamsVisitor::visit_seq` loop
(`tuple_params.rs` lines 34-39): the element's `"type"` field is required
(`Error::custom("Invalid tuple param type")` otherwise) and its
deserialized `ParamType` is unwrapped. -/
def tpOne (p : Value) : PResult DeError ParamType :=
  match vGet p "type" with
  | none => .err (.custom "Invalid tuple param type")
  | some kv => tpUnwrap (paramTypeDe kv)

/-- `TupleParamsVisitor::visit_seq` in `tuple_params.rs` (lines 28-42):
run `tpOne` on each element, pushing the produced types in input order;
the first failure (or panic) aborts the whole parse. -/
def tupleParamsSeq : List Value → PResult DeError (List ParamType)
  | [] => .ok []
  | p :: rest =>
    match tpOne p with
    | .ok t =>
      match tupleParamsSeq rest with
      | .ok ts => .ok (t :: ts)
      | .err e => .err e
      | .panic => .panic
      | .fuelOut => .fuelOut
    | .err e => .err e
    | .panic => .panic
    | .fuelOut => .fuelOut

/-- `TupleParams::deserialize` (`tuple_params.rs` lines 11-18):
`deserialize_seq`, so a non-array value is a type error. -/
def tupleParamsDe (v : Value) : PResult DeError (List ParamType) :=
  match v with
  | .vArr xs => tupleParamsSeq xs
  | _ => .err (.invalidType "a sequence")

example :
    eventParamDe (.vObj [("name", .vStr "foo"), ("type", .vStr "address"),
      ("indexed", .vBool true)]) = .ok ⟨"foo", .address, true⟩ := rfl
example :
    eventParamDe (.vObj [("name", .vStr "foo"), ("type", .vStr "tuple")]) = .panic := rfl
example :
    tupleParamsSeq [.vObj [("name", .vStr "a"), ("type", .vStr "address")],
      .vObj [("type", .vStr "bool")]] = .ok [.address, .bool] := rfl

/-- Readers that agree on all inputs of length at most `K` produce the same
bracket-tuple scan, provided the buffer plus the unscanned input fit in
`K`: every slice handed to the reader is a reversed buffer accumulated from
that region. -/
theorem tupleScanGo_congr (rd rd' : List Char → PResult ParseError ParamType)
    (orig : String) (K : Nat)
    (hagree : ∀ xs : List Char, xs.length ≤ K → rd xs = rd' xs) :
    ∀ (rest : List Char) (nested : Nat) (buf : List Char) (acc : List ParamType),
      buf.length + rest.length ≤ K →
      tupleScanGo rd orig rest nested buf acc =
        tupleScanGo rd' orig rest nested buf acc := by
  intro rest
  induction rest with
  | nil => intro nested buf acc _; rfl
  | cons c rs ih =>
    intro nested buf acc h
    simp only [tupleScanGo]
    by_cases h1 : c = '['
    · simp only [if_pos h1]
      exact ih (nested + 1) (c :: buf) acc (by simp at h ⊢; omega)
    · simp only [if_neg h1]
      by_cases h2 : c = ']'
      · simp only [if_pos h2]
        cases nested with
        | zero => rfl
        | succ n =>
          cases n with
          | zero =>
            rw [hagree buf.reverse (by simp at h ⊢; omega)]
            cases rd' buf.reverse with
            | ok t => exact ih 0 [] (t :: acc) (by simp at h ⊢; omega)
            | err e => rfl
            | panic => rfl
            | fuelOut => rfl
          | succ k =>
            exact ih (k + 1) (c :: buf) acc (by simp at h ⊢; omega)
      · simp only [if_neg h2]
        by_cases h3 : c = ','
        · simp only [if_pos h3]
          by_cases h4 : nested = 1
          · simp only [if_pos h4]
            rw [hagree buf.reverse (by simp at h ⊢; omega)]
            cases rd' buf.reverse with
            | ok t => exact ih 1 [] (t :: acc) (by simp at h ⊢; omega)
            | err e => rfl
            | panic => rfl
            | fuelOut => rfl
          · simp only [if_neg h4]
            exact ih nested (c :: buf) acc (by simp at h ⊢; omega)
        · simp only [if_neg h3]
          exact ih nested (c :: buf) acc (by simp at h ⊢; omega)

/-- Readers that agree on all inputs strictly shorter than `s` give the
same one-step unfolding on `s`: all recursive calls of `Reader::read` are
on strictly shorter strings. -/
theorem readBody_congr (rd rd' : List Char → PResult ParseError ParamType)
    (s : List Char)
    (hagree : ∀ xs : List Char, xs.length < s.length → rd xs = rd' xs) :
    readBody rd s = readBody rd' s := by
  unfold readBody
  by_cases hL : s.getLast? = some ']'
  · simp only [if_pos hL]
    have hne : s ≠ [] := by intro h; subst h; simp at hL
    have hpos : 0 < s.length := List.length_pos.mpr hne
    by_cases hH : s.head? = some '['
    · simp only [if_pos hH]
      rw [tupleScanGo_congr rd rd' (String.mk s) s.tail.length
        (fun xs hxs => hagree xs (by
          have ht : s.tail.length = s.length - 1 := List.length_tail s
          omega))
        s.tail 1 [] [] (by simp)]
    · simp only [if_neg hH]
      unfold readArray
      by_cases hnum : arrayNum s = []
      · simp only [if_pos hnum]
        by_cases hlen : s.length < 2
        · simp only [if_pos hlen]
        · simp only [if_neg hlen]
          rw [hagree (s.take (s.length - 2)) (by rw [List.length_take]; omega)]
      · simp only [if_neg hnum]
        cases hp : parseUsize (arrayNum s) with
        | none => simp only [hp]
        | some len =>
          simp only [hp]
          by_cases hlen : s.length < (arrayNum s).length + 2
          · simp only [if_pos hlen]
          · simp only [if_neg hlen]
            have hnn : 0 < (arrayNum s).length := List.length_pos.mpr hnum
            rw [hagree (s.take (s.length - (arrayNum s).length - 2))
              (by rw [List.length_take]; omega)]
  · simp only [if_neg hL]

/-- Fuel stability of the embedded reader: any two fuels strictly above the
input length give the same result. -/
theorem readF_stable : ∀ (L : Nat) (cs : List Char), cs.length ≤ L →
    ∀ m n : Nat, cs.length < m → cs.length < n → readF m cs = readF n cs := by
  intro L
  induction L with
  | zero =>
    intro cs _ m n hm hn
    cases m with
    | zero => exact absurd hm (by omega)
    | succ m' =>
      cases n with
      | zero => exact absurd hn (by omega)
      | succ n' =>
        show readBody (readF m') cs = readBody (readF n') cs
        exact readBody_congr _ _ cs (fun xs hxs => absurd hxs (by omega))
  | succ L ih =>
    intro cs hcs m n hm hn
    cases m with
    | zero => exact absurd hm (by omega)
    | succ m' =>
      cases n with
      | zero => exact absurd hn (by omega)
      | succ n' =>
        show readBody (readF m') cs = readBody (readF n') cs
        exact readBody_congr _ _ cs (fun xs hxs =>
          ih xs (by omega) m' n' (by omega) (by omega))

/-- Any fuel strictly above the input length gives the canonical result
`readL`. -/
theorem readF_eq_readL (n : Nat) (cs : List Char) (h : cs.length < n) :
    readF n cs = readL cs :=
  readF_stable cs.length cs (le_refl _) n (cs.length + 1) h (by omega)

theorem readF_succ (n : Nat) (s : List Char) :
    readF (n + 1) s = readBody (readF n) s := rfl

theorem readL_nil : readL [] = .err (.invalidName "") := rfl

theorem readL_ok_ne_nil {T : List Char} {t : ParamType}
    (h : readL T = .ok t) : T ≠ [] := by
  intro hT
  subst hT
  rw [readL_nil] at h
  exact PResult.noConfusion h

/-- A string whose last character is not `']'` goes through the keyword arm
of `Reader::read`. -/
theorem readL_scalar (s : List Char) (h : s.getLast? ≠ some ']') :
    readL s = scalarRead s := by
  unfold readL
  rw [readF_succ]
  unfold readBody
  rw [if_neg h]

theorem mem_of_getLast?Eq : ∀ {l : List Char} {c : Char},
    l.getLast? = some c → c ∈ l := by
  intro l
  induction l with
  | nil => intro c h; cases h
  | cons a as ih =>
    intro c h
    cases as with
    | nil =>
      simp only [List.getLast?_singleton, Option.some.injEq] at h
      simp [h]
    | cons b bs =>
      rw [List.getLast?_cons_cons] at h
      exact List.mem_cons_of_mem a (ih h)

/-- Appending a non-empty run of digits keeps the last character a digit,
hence not `']'`. -/
theorem getLast?_digits_ne_bracket (xs ds : List Char) (h1 : ds ≠ [])
    (h2 : ∀ c ∈ ds, c.isDigit = true) :
    (xs ++ ds).getLast? ≠ some ']' := by
  rw [List.getLast?_append_of_ne_nil xs h1]
  intro h
  have hc := h2 ']' (mem_of_getLast?Eq h)
  exact absurd hc (by decide)

theorem takeWhile_append_stop (p : Char → Bool) (y : Char) (ys : List Char)
    (hy : p y = false) :
    ∀ xs : List Char, (∀ x ∈ xs, p x = true) →
      List.takeWhile p (xs ++ y :: ys) = xs := by
  intro xs
  induction xs with
  | nil => intro _; simp [List.takeWhile_cons, hy]
  | cons a as ih =>
    intro hxs
    have ha : p a = true := hxs a (by simp)
    simp only [List.cons_append, List.takeWhile_cons, ha, if_true]
    rw [ih (fun x hx => hxs x (by simp [hx]))]

/-- The number part of `T ++ "[]"` is empty. -/
theorem arrayNum_dyn (T : List Char) : arrayNum (T ++ ['[', ']']) = [] := by
  unfold arrayNum
  rw [show (T ++ ['[', ']']).reverse = ']' :: '[' :: T.reverse by simp]
  simp [List.takeWhile_cons]

/-- The number part of `T ++ "[" ++ ds ++ "]"` for a digit run `ds` is `ds`
itself. -/
theorem arrayNum_fixed (T ds : List Char) (h2 : ∀ c ∈ ds, c.isDigit = true) :
    arrayNum (T ++ '[' :: (ds ++ [']'])) = ds := by
  unfold arrayNum
  rw [show (T ++ '[' :: (ds ++ [']'])).reverse =
      ']' :: (ds.reverse ++ '[' :: T.reverse) by simp]
  rw [show (']' :: (ds.reverse ++ '[' :: T.reverse)).drop 1 =
      ds.reverse ++ '[' :: T.reverse from rfl]
  rw [takeWhile_append_stop _ '[' T.reverse (by decide) ds.reverse
    (fun x hx => by
      have hd := h2 x (List.mem_reverse.mp hx)
      simp only [decide_eq_true_eq]
      intro he
      subst he
      exact absurd hd (by decide))]
  exact List.reverse_reverse ds

theorem parseUsize_digits (ds : List Char) (h1 : ds ≠ [])
    (h2 : ∀ c ∈ ds, c.isDigit = true) (h3 : digitsVal ds < 2 ^ 64) :
    parseUsize ds = some (digitsVal ds) := by
  unfold parseUsize
  have hhead : ds.head? ≠ some '+' := by
    cases ds with
    | nil => simp
    | cons c rest =>
      have hc := h2 c (by simp)
      simp only [List.head?_cons]
      intro h
      rw [Option.some.injEq] at h
      subst h
      exact absurd hc (by decide)
  simp only [if_neg hhead, if_neg h1]
  rw [if_pos (List.all_eq_true.mpr h2), if_pos h3]

/-- Appending `"[]"` to a valid type string that is not in bracket-tuple
form parses as the dynamic array over it. -/
theorem readL_dyn_array (T : List Char) (t : ParamType)
    (hT : readL T = .ok t) (hH : T.head? ≠ some '[') :
    readL (T ++ ['[', ']']) = .ok (.array t) := by
  have hne : T ≠ [] := readL_ok_ne_nil hT
  have hlen : (T ++ ['[', ']']).length = T.length + 2 := by simp
  unfold readL
  rw [hlen, readF_succ]
  unfold readBody
  rw [if_pos (show (T ++ ['[', ']']).getLast? = some ']' by
        rw [show T ++ ['[', ']'] = (T ++ ['[']) ++ [']'] by simp]
        exact List.getLast?_concat _)]
  rw [if_neg (show ¬(T ++ ['[', ']']).head? = some '[' by
        rw [List.head?_append_of_ne_nil T hne]; exact hH)]
  unfold readArray
  rw [arrayNum_dyn T, if_pos rfl, hlen]
  rw [if_neg (show ¬T.length + 2 < 2 by omega)]
  rw [show T.length + 2 - 2 = T.length by omega, List.take_left T _]
  rw [readF_eq_readL (T.length + 2) T (by omega), hT]

/-- Appending `"[" ++ ds ++ "]"` for a digit run `ds` to a valid type
string not in bracket-tuple form parses as the fixed array of that
length. -/
theorem readL_fixed_array (T : List Char) (t : ParamType) (ds : List Char)
    (hT : readL T = .ok t) (hH : T.head? ≠ some '[') (h1 : ds ≠ [])
    (h2 : ∀ c ∈ ds, c.isDigit = true) (h3 : digitsVal ds < 2 ^ 64) :
    readL (T ++ '[' :: (ds ++ [']'])) = .ok (.fixedArray t (digitsVal ds)) := by
  have hne : T ≠ [] := readL_ok_ne_nil hT
  have hlen : (T ++ '[' :: (ds ++ [']'])).length = T.length + ds.length + 2 := by
    simp
    omega
  unfold readL
  rw [hlen, readF_succ]
  unfold readBody
  rw [if_pos (show (T ++ '[' :: (ds ++ [']'])).getLast? = some ']' by
        rw [show T ++ '[' :: (ds ++ [']']) = (T ++ '[' :: ds) ++ [']'] by simp]
        exact List.getLast?_concat _)]
  rw [if_neg (show ¬(T ++ '[' :: (ds ++ [']'])).head? = some '[' by
        rw [List.head?_append_of_ne_nil T hne]; exact hH)]
  unfold readArray
  rw [arrayNum_fixed T ds h2, hlen]
  rw [if_neg h1]
  rw [parseUsize_digits ds h1 h2 h3]
  show (if T.length + ds.length + 2 < ds.length + 2 then PResult.panic
      else
        match readF (T.length + ds.length + 2)
            ((T ++ '[' :: (ds ++ [']'])).take (T.length + ds.length + 2 - ds.length - 2)) with
        | PResult.ok u => PResult.ok (ParamType.fixedArray u (digitsVal ds))
        | PResult.err e => PResult.err e
        | PResult.panic => PResult.panic
        | PResult.fuelOut => PResult.fuelOut) = .ok (.fixedArray t (digitsVal ds))
  rw [if_neg (show ¬T.length + ds.length + 2 < ds.length + 2 by omega)]
  rw [show T.length + ds.length + 2 - ds.length - 2 = T.length by omega,
    List.take_left T _]
  rw [readF_eq_readL (T.length + ds.length + 2) T (by omega), hT]

/-- The `int`/`uint`/`bytes` suffix arms of the keyword path: a valid digit
suffix yields the parameterized variant, an invalid one the
`InvalidNumber` error. -/
theorem scalarRead_int_suffix (ds : List Char) (h1 : ds ≠ []) :
    scalarRead ("int".toList ++ ds) =
      (match parseUsize ds with
       | some n => .ok (.int n)
       | none => .err .invalidNumber) := by
  unfold scalarRead
  simp [h1]

theorem scalarRead_uint_suffix (ds : List Char) (h1 : ds ≠ []) :
    scalarRead ("uint".toList ++ ds) =
      (match parseUsize ds with
       | some n => .ok (.uint n)
       | none => .err .invalidNumber) := by
  unfold scalarRead
  simp [h1]

theorem scalarRead_bytes_suffix (ds : List Char) (h1 : ds ≠ []) :
    scalarRead ("bytes".toList ++ ds) =
      (match parseUsize ds with
       | some n => .ok (.fixedBytes n)
       | none => .err .invalidNumber) := by
  unfold scalarRead
  simp [h1]

/-- C5 (confirmed): `read` on a bracket-form tuple string splits the
comma-separated top-level substrings and reads each recursively:
`read("[address,bool]") = Tuple([Address, Bool])` and
`read("[bool[3],uint256]") = Tuple([FixedArray(Bool, 3), Uint(256)])`. -/
theorem c5_bracket_tuple_read :
    ReaderRead "[address,bool]" = .ok (.tuple [.address, .bool]) ∧
    ReaderRead "[bool[3],uint256]" = .ok (.tuple [.fixedArray .bool 3, .uint 256]) :=
  ⟨rfl, rfl⟩

/-- C6 (confirmed): every bare scalar keyword reads to its documented
variant (`int`/`uint` default to 256 bits, `tuple` to an empty element
list), and a decimal suffix `N` after `int`, `uint` or `bytes` gives
`Int(N)`, `Uint(N)`, `FixedBytes(N)` (for any digit run whose value fits
`usize`, as the source parses it with `usize::from_str_radix`). -/
theorem c6_scalar_keywords :
    (ReaderRead "address" = .ok .address ∧
     ReaderRead "bool" = .ok .bool ∧
     ReaderRead "string" = .ok .string ∧
     ReaderRead "bytes" = .ok .bytes ∧
     ReaderRead "int" = .ok (.int 256) ∧
     ReaderRead "uint" = .ok (.uint 256) ∧
     ReaderRead "tuple" = .ok (.tuple [])) ∧
    (∀ ds : List Char, ds ≠ [] → (∀ c ∈ ds, c.isDigit = true) →
      digitsVal ds < 2 ^ 64 →
      readL ("int".toList ++ ds) = .ok (.int (digitsVal ds)) ∧
      readL ("uint".toList ++ ds) = .ok (.uint (digitsVal ds)) ∧
      readL ("bytes".toList ++ ds) = .ok (.fixedBytes (digitsVal ds))) := by
  refine ⟨⟨rfl, rfl, rfl, rfl, rfl, rfl, rfl⟩, ?_⟩
  intro ds h1 h2 h3
  have hp := parseUsize_digits ds h1 h2 h3
  refine ⟨?_, ?_, ?_⟩
  · rw [readL_scalar _ (getLast?_digits_ne_bracket "int".toList ds h1 h2),
      scalarRead_int_suffix ds h1, hp]
  · rw [readL_scalar _ (getLast?_digits_ne_bracket "uint".toList ds h1 h2),
      scalarRead_uint_suffix ds h1, hp]
  · rw [readL_scalar _ (getLast?_digits_ne_bracket "bytes".toList ds h1 h2),
      scalarRead_bytes_suffix ds h1, hp]

/-- Witness for C6: the digit-suffix clauses applied at `uint48` and
`bytes32`. -/
theorem c6_scalar_keywords_witness :
    readL ("uint".toList ++ ['4', '8']) = .ok (.uint 48) ∧
    readL ("bytes".toList ++ ['3', '2']) = .ok (.fixedBytes 32) :=
  ⟨((c6_scalar_keywords.2 ['4', '8'] (by decide) (by decide) (by decide)).2.1 :),
   ((c6_scalar_keywords.2 ['3', '2'] (by decide) (by decide) (by decide)).2.2 :)⟩

/-- Counterexample for C2: `"[address,bool]"` is an already-valid type
string, yet appending `"[]"` does not give `Array(Tuple([Address, Bool]))`
— the leading `'['` routes the whole string into the bracket-tuple scan,
which ends up reading the slice `"["` and fails with `InvalidName("[")`. -/
theorem c2_bracket_array_counterexample :
    ReaderRead "[address,bool]" = .ok (.tuple [.address, .bool]) ∧
    ReaderRead "[address,bool][]" = .err (.invalidName "[") :=
  ⟨rfl, rfl⟩

/-- C2 (corrected): for every valid `T` that does not start with `'['`
(bracket-tuple strings are excluded: their trailing `"[]"`/`"[N]"` is
swallowed by the bracket-tuple scan and the parse fails), `read(T ++ "[]")
= Array(read(T))` and `read(T ++ "[" ++ N ++ "]") = FixedArray(read(T),
N)` for any digit run `N` whose value fits `usize`; composition is
left-to-right as written. -/
theorem c2_array_suffix_amended :
    (∀ (T : List Char) (t : ParamType), readL T = .ok t →
      T.head? ≠ some '[' → readL (T ++ ['[', ']']) = .ok (.array t)) ∧
    (∀ (T : List Char) (t : ParamType) (ds : List Char), readL T = .ok t →
      T.head? ≠ some '[' → ds ≠ [] → (∀ c ∈ ds, c.isDigit = true) →
      digitsVal ds < 2 ^ 64 →
      readL (T ++ '[' :: (ds ++ [']'])) = .ok (.fixedArray t (digitsVal ds))) ∧
    ReaderRead "bool[][3]" = .ok (.fixedArray (.array .bool) 3) ∧
    ReaderRead "bool[3][]" = .ok (.array (.fixedArray .bool 3)) :=
  ⟨readL_dyn_array, readL_fixed_array, rfl, rfl⟩

/-- Witness for C2: the two general clauses applied to `T = "bool"` and
`N = "3"`. -/
theorem c2_array_suffix_witness :
    readL ("bool".toList ++ ['[', ']']) = .ok (.array .bool) ∧
    readL ("bool".toList ++ '[' :: (['3'] ++ [']'])) = .ok (.fixedArray .bool 3) :=
  ⟨c2_array_suffix_amended.1 "bool".toList .bool rfl (by decide),
   c2_array_suffix_amended.2.1 "bool".toList .bool ['3'] rfl (by decide)
     (by decide) (by decide) (by decide)⟩

/-- Counterexample for C7: `read("]")` matches no grammar production, but
instead of returning `InvalidName` the source computes the slice bound
`count - 2` with `count = 1`, underflows, and panics. -/
theorem c7_unmatched_bracket_counterexample : ReaderRead "]" = .panic := rfl

/-- C7 (corrected): on the keyword path (input not ending in `']'`),
`read` returns `InvalidName` carrying the whole input for any string
matching no scalar form, and `InvalidNumber` when an `int`/`uint`/`bytes`
suffix is present but unparseable; a non-empty unparseable bracket length
also gives `InvalidNumber`.  But inputs ending in `']'` whose number part
finds no matching `'['` make the slice index underflow and the parse
aborts by panic instead of returning an error (and inside bracket
recursion `InvalidName` may carry an inner slice rather than the whole
input, see the counterexample of C2). -/
theorem c7_error_reporting_amended :
    (∀ s : List Char, s.getLast? ≠ some ']' →
      s ≠ "address".toList → s ≠ "bytes".toList → s ≠ "bool".toList →
      s ≠ "string".toList → s ≠ "int".toList → s ≠ "tuple".toList →
      s ≠ "uint".toList → s.take 3 ≠ "int".toList →
      s.take 4 ≠ "uint".toList → s.take 5 ≠ "bytes".toList →
      readL s = .err (.invalidName (String.mk s))) ∧
    (∀ ds : List Char, ds ≠ [] → ds.getLast? ≠ some ']' →
      parseUsize ds = none →
      readL ("int".toList ++ ds) = .err .invalidNumber ∧
      readL ("uint".toList ++ ds) = .err .invalidNumber ∧
      readL ("bytes".toList ++ ds) = .err .invalidNumber) ∧
    (∀ s : List Char, s.getLast? = some ']' → s.head? ≠ some '[' →
      arrayNum s ≠ [] → parseUsize (arrayNum s) = none →
      readL s = .err .invalidNumber) ∧
    (∀ s : List Char, s.getLast? = some ']' → s.head? ≠ some '[' →
      arrayNum s = [] → s.length < 2 → readL s = .panic) ∧
    (∀ (s : List Char) (n : Nat), s.getLast? = some ']' → s.head? ≠ some '[' →
      arrayNum s ≠ [] → parseUsize (arrayNum s) = some n →
      s.length < (arrayNum s).length + 2 → readL s = .panic) := by
  refine ⟨?_, ?_, ?_, ?_, ?_⟩
  · intro s hL h1 h2 h3 h4 h5 h6 h7 h8 h9 h10
    rw [readL_scalar s hL]
    unfold scalarRead
    rw [if_neg h1, if_neg h2, if_neg h3, if_neg h4, if_neg h5, if_neg h6,
      if_neg h7, if_neg h8, if_neg h9, if_neg h10]
  · intro ds h1 hds hp
    refine ⟨?_, ?_, ?_⟩
    · rw [readL_scalar _ (by rw [List.getLast?_append_of_ne_nil _ h1]; exact hds),
        scalarRead_int_suffix ds h1, hp]
    · rw [readL_scalar _ (by rw [List.getLast?_append_of_ne_nil _ h1]; exact hds),
        scalarRead_uint_suffix ds h1, hp]
    · rw [readL_scalar _ (by rw [List.getLast?_append_of_ne_nil _ h1]; exact hds),
        scalarRead_bytes_suffix ds h1, hp]
  · intro s hL hH hnum hp
    unfold readL
    rw [readF_succ]
    unfold readBody
    rw [if_pos hL, if_neg hH]
    unfold readArray
    rw [if_neg hnum, hp]
  · intro s hL hH hnum hlen
    unfold readL
    rw [readF_succ]
    unfold readBody
    rw [if_pos hL, if_neg hH]
    unfold readArray
    rw [if_pos hnum, if_pos hlen]
  · intro s n hL hH hnum hp hlen
    unfold readL
    rw [readF_succ]
    unfold readBody
    rw [if_pos hL, if_neg hH]
    unfold readArray
    rw [if_neg hnum, hp]
    show (if s.length < (arrayNum s).length + 2 then PResult.panic
        else
          match readF s.length (s.take (s.length - (arrayNum s).length - 2)) with
          | PResult.ok u => PResult.ok (ParamType.fixedArray u n)
          | PResult.err e => PResult.err e
          | PResult.panic => PResult.panic
          | PResult.fuelOut => PResult.fuelOut) = PResult.panic
    rw [if_pos hlen]

/-- Witness for C7: the clauses applied at `"zzz"` (no production, whole
input in `InvalidName`), suffix `"x"` after `int`/`uint`/`bytes`, and the
bad fixed-array length in `"a[x]"`. -/
theorem c7_error_reporting_witness :
    readL "zzz".toList = .err (.invalidName "zzz") ∧
    readL ("int".toList ++ ['x']) = .err .invalidNumber ∧
    readL "a[x]".toList = .err .invalidNumber :=
  ⟨c7_error_reporting_amended.1 "zzz".toList (by decide) (by decide) (by decide)
      (by decide) (by decide) (by decide) (by decide) (by decide) (by decide)
      (by decide) (by decide),
   (c7_error_reporting_amended.2.1 ['x'] (by decide) (by decide) (by decide)).1,
   c7_error_reporting_amended.2.2.1 "a[x]".toList (by decide) (by decide)
      (by decide) (by decide)⟩

/-- The field loop never changes the `name` slot when no `"name"` key
occurs. -/
theorem epLoop_name_eq (epd : Value → PResult DeError EventParam) :
    ∀ (fs : List (String × Value)) (st st' : EPState),
      epLoop epd fs st = .ok st' → (∀ kv ∈ fs, kv.1 ≠ "name") →
      st'.name = st.name := by
  intro fs
  induction fs with
  | nil =>
    intro st st' h _
    simp only [epLoop, PResult.ok.injEq] at h
    rw [← h]
  | cons kv rest ih =>
    intro st st' h hk
    obtain ⟨k, v⟩ := kv
    have hkn : ¬k = "name" := hk (k, v) (List.mem_cons_self _ _)
    have hrest : ∀ kv ∈ rest, kv.1 ≠ "name" :=
      fun kv hkv => hk kv (List.mem_cons_of_mem _ hkv)
    simp only [epLoop, if_neg hkn] at h
    repeat' split at h
    all_goals first
      | simp at h
      | (have hx := ih _ _ h hrest; exact hx)

/-- The field loop never changes the `indexed` slot when no `"indexed"`
key occurs. -/
theorem epLoop_indexed_eq (epd : Value → PResult DeError EventParam) :
    ∀ (fs : List (String × Value)) (st st' : EPState),
      epLoop epd fs st = .ok st' → (∀ kv ∈ fs, kv.1 ≠ "indexed") →
      st'.indexed = st.indexed := by
  intro fs
  induction fs with
  | nil =>
    intro st st' h _
    simp only [epLoop, PResult.ok.injEq] at h
    rw [← h]
  | cons kv rest ih =>
    intro st st' h hk
    obtain ⟨k, v⟩ := kv
    have hki : ¬k = "indexed" := hk (k, v) (List.mem_cons_self _ _)
    have hrest : ∀ kv ∈ rest, kv.1 ≠ "indexed" :=
      fun kv hkv => hk kv (List.mem_cons_of_mem _ hkv)
    simp only [epLoop, if_neg hki] at h
    repeat' split at h
    all_goals first
      | simp at h
      | (have hx := ih _ _ h hrest; exact hx)

/-- C1 (code bug): a structured event-parameter object whose `type`
resolves to `Tuple` but which has no `components` field does not make the
parse return `MissingField("components")` — `event_param.rs` line 99
unwraps the absent `components` option (`components.map(..).map(..)
.unwrap()`) and the parse aborts by panic. -/
theorem c1_missing_components_panics :
    eventParamDe (.vObj [("name", .vStr "foo"), ("type", .vStr "tuple")]) =
      .panic := rfl

/-- A successful field extraction always takes `indexed` from the slot,
defaulting to `false`. -/
theorem epFinish_ok_indexed (st : EPState) (p : EventParam)
    (h : epFinish st = .ok p) : p.indexed = st.indexed.getD false := by
  unfold epFinish at h
  repeat' split at h
  all_goals first
    | (rw [PResult.ok.injEq] at h ; subst h ; rfl)
    | simp at h

/-- C9 (confirmed): `{"name":"foo","type":"address","indexed":true}`
parses to the expected record; for any event-parameter object without an
`"indexed"` key a successful parse has `indexed = false`; and for any
object without a `"name"` key whose field loop succeeds, the parse fails
with `MissingField("name")`. -/
theorem c9_event_param_fields :
    eventParamDe (.vObj [("name", .vStr "foo"), ("type", .vStr "address"),
      ("indexed", .vBool true)]) = .ok ⟨"foo", .address, true⟩ ∧
    (∀ (fuel : Nat) (fs : List (String × Value)) (p : EventParam),
      (∀ kv ∈ fs, kv.1 ≠ "indexed") →
      eventParamDeF fuel (.vObj fs) = .ok p → p.indexed = false) ∧
    (∀ (fuel : Nat) (fs : List (String × Value)) (st : EPState),
      (∀ kv ∈ fs, kv.1 ≠ "name") →
      epLoop (eventParamDeF fuel) fs ⟨none, none, none, none⟩ = .ok st →
      eventParamDeF (fuel + 1) (.vObj fs) = .err (.missingField "name")) := by
  refine ⟨rfl, ?_, ?_⟩
  · intro fuel fs p hk h
    cases fuel with
    | zero => simp [eventParamDeF] at h
    | succ fuel =>
      simp only [eventParamDeF] at h
      cases hst : epLoop (eventParamDeF fuel) fs ⟨none, none, none, none⟩ with
      | ok st =>
        rw [hst] at h
        have hidx : st.indexed = none :=
          epLoop_indexed_eq (eventParamDeF fuel) fs _ st hst hk
        have hpi := epFinish_ok_indexed st p h
        rw [hidx] at hpi
        exact hpi
      | err e => rw [hst] at h; simp at h
      | panic => rw [hst] at h; simp at h
      | fuelOut => rw [hst] at h; simp at h
  · intro fuel fs st hk h
    have hname : st.name = none :=
      epLoop_name_eq (eventParamDeF fuel) fs _ st h hk
    simp only [eventParamDeF]
    rw [h]
    show epFinish st = .err (.missingField "name")
    unfold epFinish
    rw [hname]

/-- Witness for C9: the general clauses applied to concrete objects: an
object without `indexed` parses with `indexed = false`, and an object
without `name` fails with `MissingField("name")`. -/
theorem c9_event_param_fields_witness :
    (EventParam.mk "a" .bool false).indexed = false ∧
    eventParamDeF 1 (.vObj [("type", .vStr "bool")]) =
      .err (.missingField "name") :=
  ⟨c9_event_param_fields.2.1 1 [("name", .vStr "a"), ("type", .vStr "bool")]
      ⟨"a", .bool, false⟩ (by decide) rfl,
   c9_event_param_fields.2.2 0 [("type", .vStr "bool")]
      ⟨none, some .bool, none, none⟩ (by decide) rfl⟩

/-- Counterexample for C8: an event-parameter object with the `"type"` key
twice fails, but the error names `"kind"`, not the repeated field
`"type"` (`event_param.rs` line 71). -/
theorem c8_duplicate_type_counterexample :
    eventParamDe (.vObj [("type", .vStr "bool"), ("type", .vStr "bool"),
      ("name", .vStr "a")]) = .err (.duplicateField "kind") ∧
    DeError.duplicateField "kind" ≠ DeError.duplicateField "type" :=
  ⟨rfl, by decide⟩

/-- C8 (corrected): in both structured parsers a recognized key may appear
at most once — reaching a second occurrence fails with `DuplicateField`
regardless of position — but the reported name is the recognized key
except that the `EventParam` parser reports a repeated `"type"` as
`DuplicateField("kind")`.  An object with `"name"` twice fails with
`DuplicateField("name")` in both parsers. -/
theorem c8_duplicate_fields_amended :
    (∀ (epd : Value → PResult DeError EventParam) (st : EPState) (v : Value)
       (rest : List (String × Value)), st.name.isSome →
      epLoop epd (("name", v) :: rest) st = .err (.duplicateField "name")) ∧
    (∀ (epd : Value → PResult DeError EventParam) (st : EPState) (v : Value)
       (rest : List (String × Value)), st.kind.isSome →
      epLoop epd (("type", v) :: rest) st = .err (.duplicateField "kind")) ∧
    (∀ (epd : Value → PResult DeError EventParam) (st : EPState) (v : Value)
       (rest : List (String × Value)), st.components.isSome →
      epLoop epd (("components", v) :: rest) st = .err (.duplicateField "components")) ∧
    (∀ (epd : Value → PResult DeError EventParam) (st : EPState) (v : Value)
       (rest : List (String × Value)), st.indexed.isSome →
      epLoop epd (("indexed", v) :: rest) st = .err (.duplicateField "indexed")) ∧
    (∀ (v : Value) (rest : List (String × Value)) (s : String)
       (k : Option ParamType),
      tpLoop (("name", v) :: rest) (some s) k = .err (.duplicateField "name")) ∧
    (∀ (v : Value) (rest : List (String × Value)) (n : Option String)
       (t : ParamType),
      tpLoop (("type", v) :: rest) n (some t) = .err (.duplicateField "type")) ∧
    eventParamDe (.vObj [("name", .vStr "a"), ("name", .vStr "b"),
      ("type", .vStr "bool")]) = .err (.duplicateField "name") ∧
    tupleParamDe (.vObj [("name", .vStr "a"), ("name", .vStr "b"),
      ("type", .vStr "bool")]) = .err (.duplicateField "name") := by
  refine ⟨?_, ?_, ?_, ?_, ?_, ?_, rfl, rfl⟩
  · intro epd st v rest h
    simp [epLoop, h]
  · intro epd st v rest h
    simp [epLoop, h]
  · intro epd st v rest h
    simp [epLoop, h]
  · intro epd st v rest h
    simp [epLoop, h]
  · intro v rest s k
    simp [tpLoop]
  · intro v rest n t
    simp [tpLoop]

/-- Witness for C8: the duplicate checks applied at concrete filled
states. -/
theorem c8_duplicate_fields_witness :
    epLoop (eventParamDeF 0) [("name", .vNull)]
      ⟨some "a", none, none, none⟩ = .err (.duplicateField "name") ∧
    tpLoop [("type", .vNull)] none (some .bool) = .err (.duplicateField "type") :=
  ⟨c8_duplicate_fields_amended.1 (eventParamDeF 0) ⟨some "a", none, none, none⟩
      .vNull [] rfl,
   c8_duplicate_fields_amended.2.2.2.2.2.1 .vNull [] none .bool⟩

/-- Counterexample for C3: the `TupleParam` parser performs no tuple
resolution at all — `tuple_param.rs` recognizes only `name` and `type`, so
a tuple-typed object with components keeps the empty element list from
`read("tuple")` and its `components` field is silently skipped. -/
theorem c3_tuple_param_counterexample :
    tupleParamDe (.vObj [("name", .vStr "x"), ("type", .vStr "tuple"),
      ("components", .vArr [.vObj [("name", .vStr "a"),
        ("type", .vStr "address")]])]) = .ok ⟨some "x", .tuple []⟩ ∧
    ParamType.tuple [] ≠ ParamType.tuple [.address] :=
  ⟨rfl, by simp⟩

/-- C3 (corrected): only the `EventParam` parser replaces a tuple kind's
element list with the kinds of the parsed `components` (in input order,
whatever the outer type string's literal content beyond resolving to the
`Tuple` variant); the `TupleParam` parser ignores `components` entirely
and keeps the element list the type string produced. -/
theorem c3_tuple_resolution_amended :
    (∀ (fuel : Nat) (fs : List (String × Value)) (st : EPState) (nm : String)
       (l : List ParamType) (ps : List EventParam),
      epLoop (eventParamDeF fuel) fs ⟨none, none, none, none⟩ = .ok st →
      st.name = some nm → st.kind = some (.tuple l) → st.components = some ps →
      eventParamDeF (fuel + 1) (.vObj fs) =
        .ok ⟨nm, .tuple (ps.map (fun p => p.kind)), st.indexed.getD false⟩) ∧
    (∀ (v : Value) (rest : List (String × Value)) (n : Option String)
       (k : Option ParamType),
      tpLoop (("components", v) :: rest) n k = tpLoop rest n k) ∧
    eventParamDe (.vObj [("name", .vStr "foo"), ("type", .vStr "tuple"),
      ("indexed", .vBool true),
      ("components", .vArr [
        .vObj [("name", .vStr "baseToken"), ("type", .vStr "address")],
        .vObj [("name", .vStr "startDate"), ("type", .vStr "uint48")]])]) =
      .ok ⟨"foo", .tuple [.address, .uint 48], true⟩ ∧
    eventParamDe (.vObj [("name", .vStr "foo"), ("type", .vStr "[bool]"),
      ("components", .vArr [
        .vObj [("name", .vStr "a"), ("type", .vStr "address")]])]) =
      .ok ⟨"foo", .tuple [.address], false⟩ := by
  refine ⟨?_, ?_, rfl, rfl⟩
  · intro fuel fs st nm l ps h hname hkind hcomp
    simp only [eventParamDeF]
    rw [h]
    show epFinish st = _
    unfold epFinish
    rw [hname, hkind, hcomp]
  · intro v rest n k
    simp [tpLoop]

/-- Witness for C3: the event-side replacement clause applied to the
spec's two-component example. -/
theorem c3_tuple_resolution_witness :
    eventParamDeF 2 (.vObj [("name", .vStr "foo"), ("type", .vStr "tuple"),
      ("indexed", .vBool true),
      ("components", .vArr [
        .vObj [("name", .vStr "baseToken"), ("type", .vStr "address")],
        .vObj [("name", .vStr "startDate"), ("type", .vStr "uint48")]])]) =
      .ok ⟨"foo", .tuple [.address, .uint 48], true⟩ :=
  c3_tuple_resolution_amended.1 1
    [("name", .vStr "foo"), ("type", .vStr "tuple"), ("indexed", .vBool true),
     ("components", .vArr [
        .vObj [("name", .vStr "baseToken"), ("type", .vStr "address")],
        .vObj [("name", .vStr "startDate"), ("type", .vStr "uint48")]])]
    ⟨some "foo", some (.tuple []), some true,
      some [⟨"baseToken", .address, false⟩, ⟨"startDate", .uint 48, false⟩]⟩
    "foo" [] [⟨"baseToken", .address, false⟩, ⟨"startDate", .uint 48, false⟩]
    rfl rfl rfl rfl

theorem tpOne_none (p : Value) (h : vGet p "type" = none) :
    tpOne p = .err (.custom "Invalid tuple param type") := by
  unfold tpOne
  rw [h]

theorem tpOne_ok (p : Value) (s : String) (t : ParamType)
    (hget : vGet p "type" = some (.vStr s)) (hread : ReaderRead s = .ok t) :
    tpOne p = .ok t := by
  unfold tpOne
  rw [hget]
  show tpUnwrap (paramTypeDe (.vStr s)) = .ok t
  simp only [paramTypeDe]
  rw [hread]
  rfl

/-- Counterexample for C4: inside the `EventParam` parser the components
are parsed as full event parameters, so a component descriptor carrying
only `type` — which the claim says is accepted — is rejected with
`MissingField("name")`. -/
theorem c4_component_name_counterexample :
    eventParamDe (.vObj [("name", .vStr "e"), ("type", .vStr "tuple"),
      ("components", .vArr [.vObj [("type", .vStr "address")]])]) =
      .err (.missingField "name") := rfl

/-- C4 (corrected): for the standalone tuple-components parser
(`tuple_params.rs`) the claim holds: the result depends only on each
descriptor's `"type"` lookup (`name` and any other field ignored), exactly
one `Type` is produced per descriptor in input order, and a descriptor
lacking `type` (after valid ones) fails the whole parse with
`Error::custom("Invalid tuple param type")`, the spec's
`MissingTypeField`.  But the component parser embedded in the `EventParam`
path parses descriptors as full event parameters: one with only `type` is
rejected with `MissingField("name")`, and one lacking `type` fails with
`MissingField("kind")`. -/
theorem c4_component_parser_amended :
    (∀ (vs : List Value) (ts : List ParamType),
      List.Forall₂ (fun v t => ∃ s, vGet v "type" = some (.vStr s) ∧
        ReaderRead s = .ok t) vs ts →
      tupleParamsSeq vs = .ok ts) ∧
    (∀ vs vs' : List Value,
      List.Forall₂ (fun a b => vGet a "type" = vGet b "type") vs vs' →
      tupleParamsSeq vs = tupleParamsSeq vs') ∧
    (∀ (pre : List Value) (v : Value) (post : List Value) (ts : List ParamType),
      tupleParamsSeq pre = .ok ts → vGet v "type" = none →
      tupleParamsSeq (pre ++ v :: post) =
        .err (.custom "Invalid tuple param type")) ∧
    epSeq (eventParamDeF 1) [.vObj [("type", .vStr "address")]] =
      .err (.missingField "name") ∧
    epSeq (eventParamDeF 1) [.vObj [("name", .vStr "a")]] =
      .err (.missingField "kind") := by
  refine ⟨?_, ?_, ?_, rfl, rfl⟩
  · intro vs ts hf
    induction hf with
    | nil => rfl
    | @cons a b as bs hab _ ih =>
      obtain ⟨s, hget, hread⟩ := hab
      simp only [tupleParamsSeq]
      rw [tpOne_ok a s b hget hread, ih]
  · intro vs vs' hf
    induction hf with
    | nil => rfl
    | @cons a b as bs hab _ ih =>
      simp only [tupleParamsSeq, tpOne]
      rw [hab, ih]
  · intro pre
    induction pre with
    | nil =>
      intro v post ts _ hv
      simp only [List.nil_append, tupleParamsSeq]
      rw [tpOne_none v hv]
    | cons p pre ih =>
      intro v post ts h hv
      simp only [tupleParamsSeq] at h
      cases ho : tpOne p with
      | ok t =>
        rw [ho] at h
        cases hrec : tupleParamsSeq pre with
        | ok ts' =>
          rw [List.cons_append]
          simp only [tupleParamsSeq]
          rw [ho, ih v post ts' hrec hv]
        | err e => rw [hrec] at h; simp at h
        | panic => rw [hrec] at h; simp at h
        | fuelOut => rw [hrec] at h; simp at h
      | err e => rw [ho] at h; simp at h
      | panic => rw [ho] at h; simp at h
      | fuelOut => rw [ho] at h; simp at h

/-- Witness for C4: the order-preservation clause applied to two valid
descriptors (the second carrying a `name`, ignored), and the
missing-`type` clause applied after one valid descriptor. -/
theorem c4_component_parser_witness :
    tupleParamsSeq [.vObj [("type", .vStr "address")],
      .vObj [("name", .vStr "n"), ("type", .vStr "bool")]] =
      .ok [.address, .bool] ∧
    tupleParamsSeq [.vObj [("type", .vStr "address")], .vObj [("name", .vStr "n")]] =
      .err (.custom "Invalid tuple param type") :=
  ⟨c4_component_parser_amended.1 _ [.address, .bool]
      (List.Forall₂.cons ⟨"address", rfl, rfl⟩
        (List.Forall₂.cons ⟨"bool", rfl, rfl⟩ List.Forall₂.nil)),
   c4_component_parser_amended.2.2.1 [.vObj [("type", .vStr "address")]]
      (.vObj [("name", .vStr "n")]) [] [.address] rfl rfl⟩

/-- C10 (confirmed): under the precondition that every descriptor carries
a `"type"` string the reader accepts, the standalone tuple-components
parser's unwrap never fires and the parse returns `Ok`; without the
precondition, a descriptor with an invalid type string aborts the parse by
panic (the `.unwrap()` on `ParamType::deserialize`, `tuple_params.rs` line
38) rather than by a returned error. -/
theorem c10_unwrap_reachability :
    (∀ vs : List Value,
      (∀ v ∈ vs, ∃ s t, vGet v "type" = some (.vStr s) ∧ ReaderRead s = .ok t) →
      ∃ ts, tupleParamsSeq vs = .ok ts) ∧
    tupleParamsSeq [.vObj [("name", .vStr "a"), ("type", .vStr "notatype")]] =
      .panic := by
  refine ⟨?_, rfl⟩
  intro vs hv
  induction vs with
  | nil => exact ⟨[], rfl⟩
  | cons p rest ih =>
    obtain ⟨s, t, hget, hread⟩ := hv p (List.mem_cons_self _ _)
    obtain ⟨ts, hts⟩ := ih (fun v hv2 => hv v (List.mem_cons_of_mem _ hv2))
    refine ⟨t :: ts, ?_⟩
    simp only [tupleParamsSeq]
    rw [tpOne_ok p s t hget hread, hts]

/-- Witness for C10: the Ok clause applied to a singleton valid
descriptor. -/
theorem c10_unwrap_reachability_witness :
    ∃ ts, tupleParamsSeq [.vObj [("type", .vStr "bool")]] = .ok ts :=
  c10_unwrap_reachability.1 [.vObj [("type", .vStr "bool")]]
    (fun v hv => by
      rw [List.mem_singleton] at hv
      subst hv
      exact ⟨"bool", .bool, rfl, rfl⟩)
